import Mathlib

/-!
Verification of the subscription resource-provider sync tool (`sync.py`).

The program reads two snapshots of provider registrations (mappings from
provider namespace to a registered flag), computes a delta under one of two
replication strategies (`echo` or `sync`), reports it, asks for confirmation,
and applies it. Python dicts are embedded as association lists with unique
keys (insertion order preserved, as in Python); Python exceptions are embedded
as an error type returned through `Except`.
-/

/-- Python exceptions raised by `sync.py`, distinguished by class and message. -/
inductive PyError where
  | notImplementedError (msg : String)
  | valueError (msg : String)
  | runtimeError (msg : String)
  | indexError (msg : String)
deriving DecidableEq, Repr

/-- `Registrations = dict[str, bool]`: mapping of provider namespace to
registration state, embedded as an insertion-ordered association list.
Python dict key uniqueness appears in theorems as a `Nodup` hypothesis on
`regKeys`. -/
abbrev Registrations := List (String × Bool)

/-- The key set (in insertion order) of a `Registrations` dict. -/
def regKeys (regs : Registrations) : List String := regs.map Prod.fst

/-- Python dict lookup `regs[ns]` / membership `ns in regs`: the value of the
first binding of `ns`, which for a dict (unique keys) is the unique binding. -/
def lookupReg : Registrations → String → Option Bool
  | [], _ => none
  | (k, v) :: tl, ns => if ns = k then some v else lookupReg tl ns

/-- `ReplicationStrategy.ECHO`: a `StrEnum` member, equal to its string value. -/
def ReplicationStrategy.ECHO : String := "echo"

/-- `ReplicationStrategy.SYNC`: a `StrEnum` member, equal to its string value. -/
def ReplicationStrategy.SYNC : String := "sync"

/-- `DEFAULT_REPLICATION_STRATEGY = ReplicationStrategy.ECHO`. -/
def DEFAULT_REPLICATION_STRATEGY : String := ReplicationStrategy.ECHO

/-- One iteration of the ECHO loop body of `generate_registration_delta`:
given the destination dict and one `(provider, enabled)` item of the source,
emit `(provider, True)` when `enabled and provider in destination_registrations
and not destination_registrations[provider]`, else nothing. -/
def echoEntry (destination_registrations : Registrations) (item : String × Bool) :
    Option (String × Bool) :=
  match lookupReg destination_registrations item.1 with
  | some destState => if item.2 && !destState then some (item.1, true) else none
  | none => none

/-- One iteration of the SYNC loop body of `generate_registration_delta`:
given both dicts and one `(provider, enabled)` item of the source, emit
`(provider, enabled)` when `provider in destination_registrations and not
source_registrations[provider] == destination_registrations[provider]`.
The re-lookup `source_registrations[provider]` is embedded literally; when
iterating a dict (unique keys) it always yields `some enabled`, so the `none`
fallback is unreachable in the modelled runs. -/
def syncEntry (source_registrations destination_registrations : Registrations)
    (item : String × Bool) : Option (String × Bool) :=
  match lookupReg destination_registrations item.1 with
  | some destState =>
    match lookupReg source_registrations item.1 with
    | some srcState => if srcState == destState then none else some (item.1, item.2)
    | none => none
  | none => none

/-- `generate_registration_delta(source, destination, strategy)`. The Python
`match` compares the (StrEnum-typed, hence string-valued) strategy against the
two members by value; the wildcard arm raises `NotImplementedError`. Building
the delta dict by repeated assignment over the source iteration is embedded as
`filterMap` over the source list (each source key is assigned at most once). -/
def generate_registration_delta (source_registrations destination_registrations : Registrations)
    (strategy : String) : Except PyError Registrations :=
  if strategy = ReplicationStrategy.ECHO then
    .ok (source_registrations.filterMap (echoEntry destination_registrations))
  else if strategy = ReplicationStrategy.SYNC then
    .ok (source_registrations.filterMap
      (syncEntry source_registrations destination_registrations))
  else
    .error (.notImplementedError ("Unrecognized replication strategy " ++ strategy ++ "!"))

-- Spec scenario A: Echo with partial overlap.
example :
    generate_registration_delta
      [("Microsoft.Compute", true), ("Microsoft.Storage", false), ("Microsoft.Cdn", true)]
      [("Microsoft.Compute", false), ("Microsoft.Storage", false)]
      ReplicationStrategy.ECHO = .ok [("Microsoft.Compute", true)] := rfl

-- Spec scenario B: Sync on the same inputs coincides.
example :
    generate_registration_delta
      [("Microsoft.Compute", true), ("Microsoft.Storage", false), ("Microsoft.Cdn", true)]
      [("Microsoft.Compute", false), ("Microsoft.Storage", false)]
      ReplicationStrategy.SYNC = .ok [("Microsoft.Compute", true)] := rfl

-- Spec scenario C: divergence case.
example :
    generate_registration_delta [("X", false)] [("X", true)] ReplicationStrategy.ECHO
      = .ok [] := rfl

example :
    generate_registration_delta [("X", false)] [("X", true)] ReplicationStrategy.SYNC
      = .ok [("X", false)] := rfl

example :
    generate_registration_delta [] [] "bogus"
      = .error (.notImplementedError "Unrecognized replication strategy bogus!") := rfl

/-- A hexadecimal digit as accepted by Python `int(x, 16)` on each character.
(The stdlib `int` also tolerates surrounding whitespace, a sign and grouping
underscores; those forms are irrelevant to the claims checked here.) -/
def isHexDigitChar (c : Char) : Bool :=
  c.isDigit || (97 ≤ c.toNat && c.toNat ≤ 102) || (65 ≤ c.toNat && c.toNat ≤ 70)

/-- `pat` occurs at the head of `l` (Python substring match at position 0). -/
def leadsWith : List Char → List Char → Bool
  | [], _ => true
  | _ :: _, [] => false
  | p :: ps, c :: cs => p == c && leadsWith ps cs

/-- Worker for `removeAll`: `skip` counts characters of an occurrence already
matched that still have to be discarded. -/
def removeAllAux (pat : List Char) : Nat → List Char → List Char
  | _, [] => []
  | skip + 1, _ :: rest => removeAllAux pat skip rest
  | 0, c :: rest =>
    if leadsWith pat (c :: rest) then removeAllAux pat (pat.length - 1) rest
    else c :: removeAllAux pat 0 rest

/-- Python `str.replace(pat, "")`: delete every (left-to-right, non-overlapping)
occurrence of `pat`. -/
def removeAll (pat l : List Char) : List Char := removeAllAux pat 0 l

/-- The left brace character, U+007B. -/
def leftBrace : Char := Char.ofNat 123

/-- The right brace character, U+007D. -/
def rightBrace : Char := Char.ofNat 125

/-- A character stripped by Python `str.strip` with the two brace characters. -/
def isBraceChar (c : Char) : Bool := c == leftBrace || c == rightBrace

/-- Python `hex.strip` over the brace characters: drop them from both ends. -/
def stripBraces (l : List Char) : List Char :=
  ((l.dropWhile isBraceChar).reverse.dropWhile isBraceChar).reverse

/-- The hex-digit string computed by the stdlib `uuid.UUID(hex=...)`
constructor before parsing: remove every occurrence of `urn:` then of `uuid:`,
strip braces from both ends, and remove all hyphens. -/
def pyUUIDHexChars (s : String) : List Char :=
  ((stripBraces ((s.toList |> removeAll "urn:".toList) |> removeAll "uuid:".toList))
    |>.filter (fun c => c != '-'))

/-- `subscription_id_valid(subscription_id)`: `UUID(hex=subscription_id,
version=4)` inside `try/except`. The stdlib constructor succeeds exactly when
the cleaned-up hex string has length 32 and parses as hexadecimal; passing
`version=4` performs no check at all — it merely overwrites the version and
variant bits of the parsed value. -/
def subscription_id_valid (subscription_id : String) : Bool :=
  (pyUUIDHexChars subscription_id).length == 32
    && (pyUUIDHexChars subscription_id).all isHexDigitChar

/-- `ReplicationStrategy(strategy_name)`: Python `StrEnum` lookup by value;
raises `ValueError` when no member has that value. -/
def ReplicationStrategy.ofString (strategy_name : String) : Except PyError String :=
  if strategy_name = ReplicationStrategy.ECHO then .ok ReplicationStrategy.ECHO
  else if strategy_name = ReplicationStrategy.SYNC then .ok ReplicationStrategy.SYNC
  else .error (.valueError (strategy_name ++ " is not a valid ReplicationStrategy"))

/-- The validation prefix of `main(source_subscription_id,
destination_subscription_id, strategy_name)`: the identity check, the two
UUID-format checks (in that order), then strategy resolution. Returns the
resolved strategy value on success; the subsequent subscription fetches and
the orchestrator call are external effects outside this prefix. -/
def main_validation (source_subscription_id destination_subscription_id : String)
    (strategy_name : Option String) : Except PyError String :=
  if source_subscription_id = destination_subscription_id then
    .error (.runtimeError "Subscription ID for source and destination must not match!")
  else if !subscription_id_valid source_subscription_id then
    .error (.runtimeError "Source subscription ID doesn\x27t appear to be a valid UUID.")
  else if !subscription_id_valid destination_subscription_id then
    .error (.runtimeError "Destination subscription ID doesn\x27t appear to be a valid UUID.")
  else
    match strategy_name with
    | none => .ok DEFAULT_REPLICATION_STRATEGY
    | some name => ReplicationStrategy.ofString name

/-- Modelled from the spec: a canonical UUID-version-4-formatted string —
36 characters in five hyphen-separated hex groups `8-4-4-4-12`, with the
version nibble (position 14) equal to `4` and the variant nibble (position 19)
in `8, 9, a, b`. Used only to compare `subscription_id_valid` against the
spec's stated acceptance condition. -/
def spec_uuid_version4_formatted (s : String) : Bool :=
  let cs := s.toList
  cs.length == 36 &&
    ((List.range 36).all fun i =>
      let c := cs.getD i ' '
      if i == 8 || i == 13 || i == 18 || i == 23 then c == '-'
      else if i == 14 then c == '4'
      else if i == 19 then
        c == '8' || c == '9' || c == 'a' || c == 'b' || c == 'A' || c == 'B'
      else isHexDigitChar c)

-- Sanity checks of the UUID model.
example : subscription_id_valid "not-a-guid" = false := by decide
example : subscription_id_valid "f47ac10b-58cc-4372-a567-0e02b2c3d479" = true := by decide
example : subscription_id_valid "00000000-0000-0000-0000-000000000000" = true := by decide
example : spec_uuid_version4_formatted "f47ac10b-58cc-4372-a567-0e02b2c3d479" = true := by
  decide
example : spec_uuid_version4_formatted "00000000-0000-0000-0000-000000000000" = false := by
  decide

/-- Python `str.ljust(width)`: pad on the right with spaces to total length
`width` (no-op when the string is already at least that long). -/
def ljust (s : String) (width : Nat) : String := s.pushn ' ' (width - s.length)

/-- The line printed by `delta_report` for one delta entry. -/
def reportLine (namespace_width : Nat) (item : String × Bool) : String :=
  ljust item.1 namespace_width ++ " => " ++ (if item.2 then "Register" else "Unregister")

/-- Stable insertion of `x` into a list kept in descending length order: `x`
goes in front of the first element strictly shorter than it. -/
def insertByLenDesc (x : String) : List String → List String
  | [] => [x]
  | y :: ys => if y.length < x.length then x :: y :: ys else y :: insertByLenDesc x ys

/-- Python `sorted(keys, key=lambda x: len(x), reverse=True)`: a stable sort
into descending length order (any stable sort is extensionally the same;
insertion sort is used here so the definition computes structurally). -/
def sortByLenDesc : List String → List String
  | [] => []
  | x :: xs => insertByLenDesc x (sortByLenDesc xs)

/-- `delta_report(registration_delta)`: sorts the keys by length, descending
(`sorted(..., key=lambda x: len(x), reverse=True)`), indexes the sorted list at
0 — an `IndexError` when the delta is empty — and prints one line per entry,
the namespace left-justified to the longest key length plus 5. The printed
lines are returned. -/
def delta_report (registration_delta : Registrations) : Except PyError (List String) :=
  match sortByLenDesc (registration_delta.map Prod.fst) with
  | [] => .error (.indexError "list index out of range")
  | longest :: _ =>
    .ok (registration_delta.map (reportLine (longest.length + 5)))

example : delta_report [] = .error (.indexError "list index out of range") := rfl
example :
    delta_report [("Microsoft.Compute", true), ("X", false)]
      = .ok ["Microsoft.Compute      => Register",
             "X                      => Unregister"] := rfl

/-- The destination dict after the delta has been applied to it, as the
idempotence property of the spec describes: every namespace in the delta takes
the delta's value, every other key keeps its value (`dict.update` semantics:
existing keys updated in place, keys new to the destination appended in delta
order — under both strategies the delta's keys all exist in the destination,
so the appended part is empty). -/
def dict_update (destination delta : Registrations) : Registrations :=
  destination.map (fun item => (item.1, (lookupReg delta item.1).getD item.2))
    ++ delta.filter (fun item => !(lookupReg destination item.1).isSome)

/-- The terminal outcome of one `replicate_registrations` run. -/
inductive RunOutcome where
  | noChanges
  | aborted
  | applied
  | failed (e : PyError)
deriving DecidableEq, Repr

/-- Observable behaviour of one `replicate_registrations` run: its outcome,
the delta handed to `delta_report` (if any), whether the confirmation prompt
was issued, and the `(namespace, value)` pairs passed to
`set_subscription_registration`, in order. -/
structure RunResult where
  outcome : RunOutcome
  reportedDelta : Option Registrations
  prompted : Bool
  applyCalls : List (String × Bool)
deriving DecidableEq, Repr

/-- A character stripped by Python `str.strip()` with no argument, restricted
to the ASCII whitespace the tool can meet on stdin. -/
def isSpaceChar (c : Char) : Bool :=
  c == ' ' || c == '\t' || c == '\n' || c == '\r'

/-- Drop characters satisfying `p` from both ends of a list. -/
def trimEnds (p : Char → Bool) (l : List Char) : List Char :=
  ((l.dropWhile p).reverse.dropWhile p).reverse

/-- `confirm.lower().strip()`: the operator's input line, lowercased (ASCII)
and with surrounding whitespace stripped. -/
def confirmationText (operator_input : String) : List Char :=
  trimEnds isSpaceChar (operator_input.toList.map Char.toLower)

/-- `replicate_registrations(source, destination, strategy)` after the two
snapshots have been fetched, as a function of the snapshots, the strategy and
the single line read at the confirmation prompt. Follows the source: an empty
delta returns early with no report, no prompt, no apply; otherwise the delta
is reported, the prompt read, and unless `confirm.lower().strip() == "yes"`
the run aborts; on confirmation `apply_delta` issues one
`set_subscription_registration` call per delta entry in delta order. -/
def replicate_registrations (source_registrations destination_registrations : Registrations)
    (strategy operator_input : String) : RunResult :=
  match generate_registration_delta source_registrations destination_registrations strategy with
  | .error e => ⟨.failed e, none, false, []⟩
  | .ok delta =>
    if delta.isEmpty then ⟨.noChanges, none, false, []⟩
    else if confirmationText operator_input ≠ "yes".toList then
      ⟨.aborted, some delta, true, []⟩
    else ⟨.applied, some delta, true, delta⟩

example :
    replicate_registrations [("A", true)] [("A", false)] "echo" " YES  "
      = ⟨.applied, some [("A", true)], true, [("A", true)]⟩ := by decide
example :
    replicate_registrations [("A", true)] [("A", false)] "echo" "no"
      = ⟨.aborted, some [("A", true)], true, []⟩ := by decide
example :
    replicate_registrations [("A", true)] [("A", true)] "echo" ""
      = ⟨.noChanges, none, false, []⟩ := by decide

/-! ### Lookup lemmas for the association-list embedding of dicts -/

theorem lookupReg_eq_none_iff (l : Registrations) (ns : String) :
    lookupReg l ns = none ↔ ns ∉ regKeys l := by
  induction l with
  | nil => simp [lookupReg, regKeys]
  | cons pe tl ih =>
    obtain ⟨k, v⟩ := pe
    by_cases h : ns = k
    · subst h
      simp [lookupReg, regKeys]
    · simp [lookupReg, regKeys, h, ih]

theorem lookupReg_of_mem (l : Registrations) (hN : (regKeys l).Nodup)
    (pe : String × Bool) (h : pe ∈ l) : lookupReg l pe.1 = some pe.2 := by
  induction l with
  | nil => cases h
  | cons qe tl ih =>
    rw [regKeys, List.map_cons, List.nodup_cons] at hN
    rcases List.mem_cons.mp h with rfl | htl
    · simp [lookupReg]
    · have hne : pe.1 ≠ qe.1 := by
        intro he
        exact hN.1 (he ▸ List.mem_map_of_mem Prod.fst htl)
      obtain ⟨k, v⟩ := qe
      simpa [lookupReg, hne] using ih hN.2 htl

theorem lookupReg_filterMap_of_not_mem (f : String × Bool → Option (String × Bool))
    (hf : ∀ pe q, f pe = some q → q.1 = pe.1) (l : Registrations) (ns : String)
    (h : ns ∉ regKeys l) : lookupReg (l.filterMap f) ns = none := by
  induction l with
  | nil => simp [lookupReg]
  | cons pe tl ih =>
    rw [regKeys, List.map_cons, List.mem_cons, not_or] at h
    rw [List.filterMap_cons]
    cases hfk : f pe with
    | none => exact ih h.2
    | some q =>
      have : ns ≠ q.1 := by rw [hf pe q hfk]; exact h.1
      obtain ⟨qk, qv⟩ := q
      simpa [lookupReg, this] using ih h.2

theorem echoEntry_key (D : Registrations) (pe q : String × Bool)
    (h : echoEntry D pe = some q) : q.1 = pe.1 := by
  unfold echoEntry at h
  split at h
  · split at h
    · cases h
      rfl
    · cases h
  · cases h

theorem syncEntry_key (S D : Registrations) (pe q : String × Bool)
    (h : syncEntry S D pe = some q) : q.1 = pe.1 := by
  unfold syncEntry at h
  split at h
  · split at h
    · split at h
      · cases h
      · cases h
        rfl
    · cases h
  · cases h

/-- Pointwise characterization of the ECHO delta: a namespace is bound (to
`true`) exactly when the source has it `true` and the destination has it
`false`. -/
theorem echo_lookup (S D : Registrations) (hS : (regKeys S).Nodup) (ns : String) :
    lookupReg (S.filterMap (echoEntry D)) ns =
      if lookupReg S ns = some true ∧ lookupReg D ns = some false
      then some true else none := by
  induction S with
  | nil => simp [lookupReg]
  | cons pe tl ih =>
    rw [regKeys, List.map_cons, List.nodup_cons] at hS
    obtain ⟨k, v⟩ := pe
    rw [List.filterMap_cons]
    by_cases hns : ns = k
    · subst hns
      have htl : lookupReg (tl.filterMap (echoEntry D)) ns = none :=
        lookupReg_filterMap_of_not_mem _ (echoEntry_key D) tl ns hS.1
      cases hD : lookupReg D ns with
      | none => simp [echoEntry, lookupReg, hD, htl]
      | some b =>
        cases hv : v
        · simp [echoEntry, lookupReg, hD, htl]
        · cases hb : b
          · simp [echoEntry, lookupReg, hD, hb, htl]
          · simp [echoEntry, lookupReg, hD, hb, htl]
    · have hrest := ih hS.2
      cases hfk : echoEntry D (k, v) with
      | none => simpa [lookupReg, hns] using hrest
      | some q =>
        have hq : q.1 = k := echoEntry_key D _ _ hfk
        obtain ⟨qk, qv⟩ := q
        simp only at hq
        subst hq
        simpa [lookupReg, hns] using hrest

/-- Generalized pointwise characterization of the SYNC loop, stated for any
sublist `l` of source items (whose keys the full source dict resolves to the
item's own value, as Python dict iteration guarantees). -/
theorem sync_lookup_aux (S D : Registrations) :
    ∀ l : Registrations, (regKeys l).Nodup →
      (∀ pe ∈ l, lookupReg S pe.1 = some pe.2) → ∀ ns,
      lookupReg (l.filterMap (syncEntry S D)) ns =
        match lookupReg l ns, lookupReg D ns with
        | some a, some b => if a = b then none else some a
        | _, _ => none := by
  intro l
  induction l with
  | nil =>
    intro _ _ ns
    simp [lookupReg]
  | cons pe tl ih =>
    intro hN hmem ns
    rw [regKeys, List.map_cons, List.nodup_cons] at hN
    obtain ⟨k, v⟩ := pe
    have hSk : lookupReg S k = some v := hmem (k, v) (List.mem_cons_self _ _)
    rw [List.filterMap_cons]
    by_cases hns : ns = k
    · subst hns
      have htl : lookupReg (tl.filterMap (syncEntry S D)) ns = none :=
        lookupReg_filterMap_of_not_mem _ (syncEntry_key S D) tl ns hN.1
      cases hD : lookupReg D ns with
      | none => simp [syncEntry, lookupReg, hD, hSk, htl]
      | some b =>
        by_cases hvb : v = b
        · subst hvb
          simp [syncEntry, lookupReg, hD, hSk, htl]
        · simp [syncEntry, lookupReg, hD, hSk, htl, hvb, Ne.symm hvb]
    · have hrest := ih hN.2 (fun qe hqe => hmem qe (List.mem_cons_of_mem _ hqe)) ns
      cases hfk : syncEntry S D (k, v) with
      | none => simpa [lookupReg, hns] using hrest
      | some q =>
        have hq : q.1 = k := syncEntry_key S D _ _ hfk
        obtain ⟨qk, qv⟩ := q
        simp only at hq
        subst hq
        simpa [lookupReg, hns] using hrest

/-- Pointwise characterization of the SYNC delta: a namespace is bound exactly
when it is present in both snapshots with differing values, and then it is
bound to the source's value. -/
theorem sync_lookup (S D : Registrations) (hS : (regKeys S).Nodup) (ns : String) :
    lookupReg (S.filterMap (syncEntry S D)) ns =
      match lookupReg S ns, lookupReg D ns with
      | some a, some b => if a = b then none else some a
      | _, _ => none :=
  sync_lookup_aux S D S hS (fun pe h => lookupReg_of_mem S hS pe h) ns

theorem mem_regKeys_of_lookup (l : Registrations) (ns : String) (w : Bool)
    (h : lookupReg l ns = some w) : ns ∈ regKeys l := by
  by_contra hmem
  rw [← lookupReg_eq_none_iff] at hmem
  rw [hmem] at h
  cases h

theorem lookupReg_append (l1 l2 : Registrations) (ns : String) :
    lookupReg (l1 ++ l2) ns =
      match lookupReg l1 ns with
      | some v => some v
      | none => lookupReg l2 ns := by
  induction l1 with
  | nil => simp [lookupReg]
  | cons pe tl ih =>
    obtain ⟨k, v⟩ := pe
    by_cases h : ns = k
    · subst h
      simp [lookupReg]
    · simpa [lookupReg, h] using ih

theorem lookupReg_map_values (D : Registrations) (g : String → Bool → Bool) (ns : String) :
    lookupReg (D.map fun item => (item.1, g item.1 item.2)) ns
      = (lookupReg D ns).map (g ns) := by
  induction D with
  | nil => simp [lookupReg]
  | cons pe tl ih =>
    obtain ⟨k, v⟩ := pe
    by_cases h : ns = k
    · subst h
      simp [lookupReg]
    · simpa [lookupReg, h] using ih

/-- Lookup in the updated destination, when every delta key exists in the
destination (as both strategies guarantee): present keys take the delta's
value when the delta binds them, and keep their value otherwise. -/
theorem dict_update_lookup (D δ : Registrations)
    (hsub : ∀ pe ∈ δ, pe.1 ∈ regKeys D) (ns : String) :
    lookupReg (dict_update D δ) ns =
      match lookupReg D ns with
      | some b => some ((lookupReg δ ns).getD b)
      | none => none := by
  have hfilter : δ.filter (fun item => !(lookupReg D item.1).isSome) = [] := by
    rw [List.filter_eq_nil_iff]
    intro pe hpe
    have hmem := hsub pe hpe
    cases h : lookupReg D pe.1 with
    | none =>
      rw [lookupReg_eq_none_iff] at h
      exact absurd hmem h
    | some b => simp [h]
  rw [dict_update, hfilter, List.append_nil]
  have hmap := lookupReg_map_values D (fun k v => (lookupReg δ k).getD v) ns
  rw [hmap]
  cases lookupReg D ns <;> rfl

theorem dict_update_lookup_none (D δ : Registrations)
    (hsub : ∀ pe ∈ δ, pe.1 ∈ regKeys D) (ns : String)
    (hD : lookupReg D ns = none) : lookupReg (dict_update D δ) ns = none := by
  rw [dict_update_lookup D δ hsub ns, hD]

theorem dict_update_lookup_some (D δ : Registrations)
    (hsub : ∀ pe ∈ δ, pe.1 ∈ regKeys D) (ns : String) (b : Bool)
    (hD : lookupReg D ns = some b) :
    lookupReg (dict_update D δ) ns = some ((lookupReg δ ns).getD b) := by
  rw [dict_update_lookup D δ hsub ns, hD]

theorem lookupReg_ne_none_of_mem_keys (l : Registrations) (ns : String)
    (h : ns ∈ regKeys l) : lookupReg l ns ≠ none := by
  intro h0
  rw [lookupReg_eq_none_iff] at h0
  exact h0 h

/-- Every key of the ECHO delta exists in the destination. -/
theorem echo_delta_keys_sub (S D : Registrations) (hS : (regKeys S).Nodup) :
    ∀ pe ∈ S.filterMap (echoEntry D), pe.1 ∈ regKeys D := by
  intro pe hpe
  have hk : lookupReg (S.filterMap (echoEntry D)) pe.1 ≠ none :=
    lookupReg_ne_none_of_mem_keys _ pe.1 (List.mem_map_of_mem Prod.fst hpe)
  rw [echo_lookup S D hS pe.1] at hk
  by_cases hc : lookupReg S pe.1 = some true ∧ lookupReg D pe.1 = some false
  · exact mem_regKeys_of_lookup D pe.1 false hc.2
  · exact absurd (if_neg hc) hk

/-- Every key of the SYNC delta exists in the destination. -/
theorem sync_delta_keys_sub (S D : Registrations) (hS : (regKeys S).Nodup) :
    ∀ pe ∈ S.filterMap (syncEntry S D), pe.1 ∈ regKeys D := by
  intro pe hpe
  have hk : lookupReg (S.filterMap (syncEntry S D)) pe.1 ≠ none :=
    lookupReg_ne_none_of_mem_keys _ pe.1 (List.mem_map_of_mem Prod.fst hpe)
  rw [sync_lookup S D hS pe.1] at hk
  cases hSv : lookupReg S pe.1 with
  | none => rw [hSv] at hk; exact absurd rfl hk
  | some a =>
    cases hDv : lookupReg D pe.1 with
    | none => rw [hSv, hDv] at hk; exact absurd rfl hk
    | some b => exact mem_regKeys_of_lookup D pe.1 b hDv

/-- Re-evaluating ECHO against the updated destination yields the empty
delta (the list built by the loop is literally empty). -/
theorem echo_idem (S D : Registrations) (hS : (regKeys S).Nodup) :
    S.filterMap (echoEntry (dict_update D (S.filterMap (echoEntry D)))) = [] := by
  have hsub := echo_delta_keys_sub S D hS
  rw [List.filterMap_eq_nil_iff]
  intro pe hpe
  have hSk : lookupReg S pe.1 = some pe.2 := lookupReg_of_mem S hS pe hpe
  cases hD : lookupReg D pe.1 with
  | none =>
    have hupd := dict_update_lookup_none D _ hsub pe.1 hD
    simp [echoEntry, hupd]
  | some b =>
    have hupd := dict_update_lookup_some D _ hsub pe.1 b hD
    rw [echo_lookup S D hS pe.1, hSk, hD] at hupd
    cases hv : pe.2 with
    | false =>
      rw [hv] at hupd
      simp at hupd
      simp [echoEntry, hupd, hv]
    | true =>
      cases hb : b with
      | false =>
        rw [hv, hb] at hupd
        simp at hupd
        simp [echoEntry, hupd, hv]
      | true =>
        rw [hv, hb] at hupd
        simp at hupd
        simp [echoEntry, hupd, hv]

/-- Re-evaluating SYNC against the updated destination yields the empty
delta. -/
theorem sync_idem (S D : Registrations) (hS : (regKeys S).Nodup) :
    S.filterMap (syncEntry S (dict_update D (S.filterMap (syncEntry S D)))) = [] := by
  have hsub := sync_delta_keys_sub S D hS
  rw [List.filterMap_eq_nil_iff]
  intro pe hpe
  have hSk : lookupReg S pe.1 = some pe.2 := lookupReg_of_mem S hS pe hpe
  cases hD : lookupReg D pe.1 with
  | none =>
    have hupd := dict_update_lookup_none D _ hsub pe.1 hD
    simp [syncEntry, hupd]
  | some b =>
    have hupd := dict_update_lookup_some D _ hsub pe.1 b hD
    rw [sync_lookup S D hS pe.1, hSk, hD] at hupd
    dsimp only at hupd
    by_cases hvb : pe.2 = b
    · rw [if_pos hvb] at hupd
      simp only [Option.getD_none] at hupd
      simp [syncEntry, hupd, hSk, hvb]
    · rw [if_neg hvb] at hupd
      simp only [Option.getD_some] at hupd
      simp [syncEntry, hupd, hSk]

theorem generate_echo_eq (S D : Registrations) :
    generate_registration_delta S D ReplicationStrategy.ECHO
      = .ok (S.filterMap (echoEntry D)) := by
  rw [generate_registration_delta, if_pos rfl]

theorem generate_sync_eq (S D : Registrations) :
    generate_registration_delta S D ReplicationStrategy.SYNC
      = .ok (S.filterMap (syncEntry S D)) := by
  rw [generate_registration_delta, if_neg (by decide), if_pos rfl]

theorem generate_other_eq (S D : Registrations) (strategy : String)
    (h1 : strategy ≠ ReplicationStrategy.ECHO) (h2 : strategy ≠ ReplicationStrategy.SYNC) :
    generate_registration_delta S D strategy
      = .error (.notImplementedError
          ("Unrecognized replication strategy " ++ strategy ++ "!")) := by
  rw [generate_registration_delta, if_neg h1, if_neg h2]

/-! ### Claim theorems -/

/-- C1: For every pair of snapshots `S` (source) and `D` (destination),
evaluating with strategy Echo returns a delta whose entries are exactly the
namespaces present in both `S` and `D` with `S[ns] = true` and `D[ns] = false`,
each mapped to `true`; no other namespace appears in the result. -/
theorem claim_echo_delta_exact (S D : Registrations) (hS : (regKeys S).Nodup) (ns : String) :
    generate_registration_delta S D ReplicationStrategy.ECHO
      = .ok (S.filterMap (echoEntry D)) ∧
    lookupReg (S.filterMap (echoEntry D)) ns =
      (if lookupReg S ns = some true ∧ lookupReg D ns = some false
       then some true else none) ∧
    (ns ∈ regKeys (S.filterMap (echoEntry D)) ↔
      lookupReg S ns = some true ∧ lookupReg D ns = some false) := by
  refine ⟨generate_echo_eq S D, echo_lookup S D hS ns, ?_, ?_⟩
  · intro hmem
    have hk := lookupReg_ne_none_of_mem_keys _ ns hmem
    rw [echo_lookup S D hS ns] at hk
    by_cases hc : lookupReg S ns = some true ∧ lookupReg D ns = some false
    · exact hc
    · exact absurd (if_neg hc) hk
  · intro hc
    have hlook : lookupReg (S.filterMap (echoEntry D)) ns = some true := by
      rw [echo_lookup S D hS ns, if_pos hc]
    exact mem_regKeys_of_lookup _ ns true hlook

theorem claim_echo_delta_exact_witness :
    generate_registration_delta [("a", true)] [("a", false)] ReplicationStrategy.ECHO
      = .ok (List.filterMap (echoEntry [("a", false)]) [("a", true)]) ∧
    lookupReg (List.filterMap (echoEntry [("a", false)]) [("a", true)]) "a" =
      (if lookupReg [("a", true)] "a" = some true ∧ lookupReg [("a", false)] "a" = some false
       then some true else none) ∧
    ("a" ∈ regKeys (List.filterMap (echoEntry [("a", false)]) [("a", true)]) ↔
      lookupReg [("a", true)] "a" = some true ∧ lookupReg [("a", false)] "a" = some false) :=
  claim_echo_delta_exact [("a", true)] [("a", false)] (by decide) "a"

/-- C2: For every pair of snapshots `S` and `D`, evaluating with strategy Sync
returns a delta whose key set is exactly the namespaces present in both `S`
and `D` where `S[ns] ≠ D[ns]`, and every such entry maps to `S[ns]` (which may
be `true` or `false`). -/
theorem claim_sync_delta_exact (S D : Registrations) (hS : (regKeys S).Nodup) (ns : String) :
    generate_registration_delta S D ReplicationStrategy.SYNC
      = .ok (S.filterMap (syncEntry S D)) ∧
    lookupReg (S.filterMap (syncEntry S D)) ns =
      (match lookupReg S ns, lookupReg D ns with
       | some a, some b => if a = b then none else some a
       | _, _ => none) ∧
    (ns ∈ regKeys (S.filterMap (syncEntry S D)) ↔
      ∃ a b, lookupReg S ns = some a ∧ lookupReg D ns = some b ∧ a ≠ b) := by
  refine ⟨generate_sync_eq S D, sync_lookup S D hS ns, ?_, ?_⟩
  · intro hmem
    have hk := lookupReg_ne_none_of_mem_keys _ ns hmem
    rw [sync_lookup S D hS ns] at hk
    cases hSv : lookupReg S ns with
    | none => rw [hSv] at hk; exact absurd rfl hk
    | some a =>
      cases hDv : lookupReg D ns with
      | none => rw [hSv, hDv] at hk; exact absurd rfl hk
      | some b =>
        rw [hSv, hDv] at hk
        dsimp only at hk
        by_cases hab : a = b
        · rw [if_pos hab] at hk
          exact absurd rfl hk
        · exact ⟨a, b, rfl, rfl, hab⟩
  · rintro ⟨a, b, ha, hb, hab⟩
    have hlook : lookupReg (S.filterMap (syncEntry S D)) ns = some a := by
      rw [sync_lookup S D hS ns, ha, hb]
      dsimp only
      exact if_neg hab
    exact mem_regKeys_of_lookup _ ns a hlook

theorem claim_sync_delta_exact_witness :
    generate_registration_delta [("a", true)] [("a", false)] ReplicationStrategy.SYNC
      = .ok (List.filterMap (syncEntry [("a", true)] [("a", false)]) [("a", true)]) ∧
    lookupReg (List.filterMap (syncEntry [("a", true)] [("a", false)]) [("a", true)]) "a" =
      (match lookupReg [("a", true)] "a", lookupReg [("a", false)] "a" with
       | some a, some b => if a = b then none else some a
       | _, _ => none) ∧
    ("a" ∈ regKeys (List.filterMap (syncEntry [("a", true)] [("a", false)]) [("a", true)]) ↔
      ∃ a b, lookupReg [("a", true)] "a" = some a ∧ lookupReg [("a", false)] "a" = some b
        ∧ a ≠ b) :=
  claim_sync_delta_exact [("a", true)] [("a", false)] (by decide) "a"

/-- C3: For every pair of snapshots and every strategy (Echo or Sync), the
delta never contains a namespace whose desired value equals `D`'s current
value for that namespace, and under Echo every value in the delta is `true`. -/
theorem claim_delta_invariants (S D : Registrations) (strategy : String)
    (hstrat : strategy = ReplicationStrategy.ECHO ∨ strategy = ReplicationStrategy.SYNC)
    (hS : (regKeys S).Nodup) (d : Registrations)
    (hd : generate_registration_delta S D strategy = .ok d) :
    (∀ ns v, lookupReg d ns = some v → lookupReg D ns ≠ some v) ∧
    (strategy = ReplicationStrategy.ECHO → ∀ ns v, lookupReg d ns = some v → v = true) := by
  rcases hstrat with h | h
  · subst h
    rw [generate_echo_eq S D] at hd
    cases hd
    constructor
    · intro ns v hv hDv
      rw [echo_lookup S D hS ns] at hv
      by_cases hc : lookupReg S ns = some true ∧ lookupReg D ns = some false
      · rw [if_pos hc] at hv
        cases hv
        rw [hc.2] at hDv
        cases hDv
      · rw [if_neg hc] at hv
        cases hv
    · intro _ ns v hv
      rw [echo_lookup S D hS ns] at hv
      by_cases hc : lookupReg S ns = some true ∧ lookupReg D ns = some false
      · rw [if_pos hc] at hv
        cases hv
        rfl
      · rw [if_neg hc] at hv
        cases hv
  · subst h
    rw [generate_sync_eq S D] at hd
    cases hd
    constructor
    · intro ns v hv hDv
      rw [sync_lookup S D hS ns] at hv
      cases hSv : lookupReg S ns with
      | none => rw [hSv] at hv; cases hv
      | some a =>
        cases hDv2 : lookupReg D ns with
        | none => rw [hSv, hDv2] at hv; cases hv
        | some b =>
          rw [hSv, hDv2] at hv
          dsimp only at hv
          by_cases hab : a = b
          · rw [if_pos hab] at hv
            cases hv
          · rw [if_neg hab] at hv
            cases hv
            rw [hDv2] at hDv
            cases hDv
            exact hab rfl
    · intro h
      exact absurd h (by decide)

theorem claim_delta_invariants_witness :
    (∀ ns v, lookupReg [("a", true)] ns = some v → lookupReg [("a", false)] ns ≠ some v) ∧
    (ReplicationStrategy.ECHO = ReplicationStrategy.ECHO →
      ∀ ns v, lookupReg [("a", true)] ns = some v → v = true) :=
  claim_delta_invariants [("a", true)] [("a", false)] ReplicationStrategy.ECHO
    (Or.inl rfl) (by decide) [("a", true)] rfl

/-- C4: For every pair of snapshots and every strategy (Echo or Sync), if
`delta` is the evaluated delta and the destination is updated so that every
namespace of the delta takes the delta's value (other keys unchanged),
re-evaluating the same strategy yields the empty delta. -/
theorem claim_delta_idempotent (S D : Registrations) (strategy : String)
    (hstrat : strategy = ReplicationStrategy.ECHO ∨ strategy = ReplicationStrategy.SYNC)
    (hS : (regKeys S).Nodup) (d : Registrations)
    (hd : generate_registration_delta S D strategy = .ok d) :
    generate_registration_delta S (dict_update D d) strategy = .ok [] := by
  rcases hstrat with h | h
  · subst h
    rw [generate_echo_eq S D] at hd
    cases hd
    rw [generate_echo_eq, echo_idem S D hS]
  · subst h
    rw [generate_sync_eq S D] at hd
    cases hd
    rw [generate_sync_eq, sync_idem S D hS]

theorem claim_delta_idempotent_witness :
    generate_registration_delta [("a", true)]
      (dict_update [("a", false)] [("a", true)]) ReplicationStrategy.ECHO = .ok [] :=
  claim_delta_idempotent [("a", true)] [("a", false)] ReplicationStrategy.ECHO
    (Or.inl rfl) (by decide) [("a", true)] rfl

/-- C10: For every pair of snapshots and every strategy that is a member of the
`ReplicationStrategy` enumeration (ECHO or SYNC), `generate_registration_delta`
never raises: the unsupported-strategy branch is unreachable under that
precondition and a delta is always returned. -/
theorem claim_enum_strategy_total (S D : Registrations) (strategy : String)
    (hstrat : strategy = ReplicationStrategy.ECHO ∨ strategy = ReplicationStrategy.SYNC) :
    ∃ d, generate_registration_delta S D strategy = .ok d := by
  rcases hstrat with h | h
  · exact ⟨_, h ▸ generate_echo_eq S D⟩
  · exact ⟨_, h ▸ generate_sync_eq S D⟩

theorem claim_enum_strategy_total_witness :
    ∃ d, generate_registration_delta [("a", true)] [] ReplicationStrategy.SYNC = .ok d :=
  claim_enum_strategy_total [("a", true)] [] ReplicationStrategy.SYNC (Or.inr rfl)

/-! ### Lemmas about the length-descending sort used by the reporter -/

theorem mem_insertByLenDesc (x a : String) (l : List String) :
    a ∈ insertByLenDesc x l ↔ a = x ∨ a ∈ l := by
  induction l with
  | nil => simp [insertByLenDesc]
  | cons y ys ih =>
    rw [insertByLenDesc]
    by_cases h : y.length < x.length
    · rw [if_pos h]
      simp
    · rw [if_neg h, List.mem_cons, ih, List.mem_cons]
      tauto

theorem mem_sortByLenDesc (a : String) (l : List String) :
    a ∈ sortByLenDesc l ↔ a ∈ l := by
  induction l with
  | nil => simp [sortByLenDesc]
  | cons x xs ih =>
    rw [sortByLenDesc, mem_insertByLenDesc, ih, List.mem_cons]

theorem pairwise_insertByLenDesc (x : String) (l : List String)
    (h : l.Pairwise (fun a b => b.length ≤ a.length)) :
    (insertByLenDesc x l).Pairwise (fun a b => b.length ≤ a.length) := by
  induction l with
  | nil => simp [insertByLenDesc]
  | cons y ys ih =>
    have h1 := List.pairwise_cons.mp h
    rw [insertByLenDesc]
    by_cases hlt : y.length < x.length
    · rw [if_pos hlt, List.pairwise_cons]
      refine ⟨?_, h⟩
      intro b hb
      rcases List.mem_cons.mp hb with rfl | hb2
      · exact Nat.le_of_lt hlt
      · exact Nat.le_trans (h1.1 b hb2) (Nat.le_of_lt hlt)
    · rw [if_neg hlt, List.pairwise_cons]
      refine ⟨?_, ih h1.2⟩
      intro b hb
      rcases (mem_insertByLenDesc x b ys).mp hb with rfl | hb2
      · exact Nat.le_of_not_lt hlt
      · exact h1.1 b hb2

theorem pairwise_sortByLenDesc (l : List String) :
    (sortByLenDesc l).Pairwise (fun a b => b.length ≤ a.length) := by
  induction l with
  | nil => simp [sortByLenDesc]
  | cons x xs ih =>
    rw [sortByLenDesc]
    exact pairwise_insertByLenDesc x _ ih

/-- The head of the length-descending sort is an element of maximal length. -/
theorem sortByLenDesc_head_max (l : List String) (x : String) (t : List String)
    (h : sortByLenDesc l = x :: t) :
    x ∈ l ∧ ∀ y ∈ l, y.length ≤ x.length := by
  constructor
  · have hx : x ∈ sortByLenDesc l := by
      rw [h]
      exact List.mem_cons_self x t
    exact (mem_sortByLenDesc x l).mp hx
  · intro y hy
    have hy2 : y ∈ x :: t := by
      rw [← h]
      exact (mem_sortByLenDesc y l).mpr hy
    rcases List.mem_cons.mp hy2 with rfl | hyt
    · exact Nat.le.refl
    · have hp := pairwise_sortByLenDesc l
      rw [h, List.pairwise_cons] at hp
      exact hp.1 y hyt

theorem insertByLenDesc_ne_nil (x : String) (l : List String) :
    insertByLenDesc x l ≠ [] := by
  cases l with
  | nil => simp [insertByLenDesc]
  | cons y ys =>
    rw [insertByLenDesc]
    split <;> simp

theorem sortByLenDesc_ne_nil (l : List String) (h : l ≠ []) : sortByLenDesc l ≠ [] := by
  cases l with
  | nil => exact absurd rfl h
  | cons x xs =>
    rw [sortByLenDesc]
    exact insertByLenDesc_ne_nil x _

/-- C9: `delta_report` has an unstated non-emptiness precondition: on an empty
delta it raises an uncaught `IndexError` (from indexing the sorted key list at
position 0) instead of printing nothing; on every non-empty delta it prints
each entry exactly once, the namespace left-justified to the longest key
length plus 5. -/
theorem claim_delta_report_behaviour (d : Registrations) :
    delta_report [] = .error (.indexError "list index out of range") ∧
    (d ≠ [] →
      ∃ w, (∀ pe ∈ d, pe.1.length ≤ w) ∧ (∃ pe ∈ d, pe.1.length = w) ∧
        delta_report d = .ok (d.map (reportLine (w + 5)))) := by
  refine ⟨rfl, ?_⟩
  intro hne
  cases hs : sortByLenDesc (d.map Prod.fst) with
  | nil =>
    have hmne : d.map Prod.fst ≠ [] := by
      intro h0
      rw [List.map_eq_nil_iff] at h0
      exact hne h0
    exact absurd hs (sortByLenDesc_ne_nil _ hmne)
  | cons x t =>
    have hmax := sortByLenDesc_head_max _ x t hs
    refine ⟨x.length, ?_, ?_, ?_⟩
    · intro pe hpe
      exact hmax.2 pe.1 (List.mem_map_of_mem Prod.fst hpe)
    · obtain ⟨pe, hpe, hpe1⟩ := List.mem_map.mp hmax.1
      exact ⟨pe, hpe, by rw [hpe1]⟩
    · unfold delta_report
      rw [hs]

theorem claim_delta_report_behaviour_witness :
    delta_report [] = .error (.indexError "list index out of range") ∧
    ∃ w, (∀ pe ∈ [("ab", true), ("c", false)], pe.1.length ≤ w) ∧
      (∃ pe ∈ [("ab", true), ("c", false)], pe.1.length = w) ∧
      delta_report [("ab", true), ("c", false)]
        = .ok ([("ab", true), ("c", false)].map (reportLine (w + 5))) :=
  ⟨(claim_delta_report_behaviour []).1,
   (claim_delta_report_behaviour [("ab", true), ("c", false)]).2 (by decide)⟩

/-- C5 (the code at the claimed behaviour): `subscription_id_valid` rejects
`"not-a-guid"` and accepts two distinct well-formed UUID-v4 strings, and
`main` raises the invalid-source / invalid-destination errors accordingly —
but the version nibble is never checked: the nil UUID, which is not
version-4-formatted, is accepted by `subscription_id_valid` and by `main`,
because `UUID(hex=..., version=4)` overwrites the version bits instead of
validating them. -/
theorem claim_uuid_validation :
    subscription_id_valid "not-a-guid" = false ∧
    subscription_id_valid "f47ac10b-58cc-4372-a567-0e02b2c3d479" = true ∧
    subscription_id_valid "9b2b2b2a-1c4d-4a8e-9f3a-2d1e0c9b8a7f" = true ∧
    main_validation "not-a-guid" "f47ac10b-58cc-4372-a567-0e02b2c3d479" none
      = .error (.runtimeError "Source subscription ID doesn\x27t appear to be a valid UUID.") ∧
    main_validation "f47ac10b-58cc-4372-a567-0e02b2c3d479" "not-a-guid" none
      = .error (.runtimeError
          "Destination subscription ID doesn\x27t appear to be a valid UUID.") ∧
    main_validation "f47ac10b-58cc-4372-a567-0e02b2c3d479"
        "9b2b2b2a-1c4d-4a8e-9f3a-2d1e0c9b8a7f" none = .ok ReplicationStrategy.ECHO ∧
    spec_uuid_version4_formatted "00000000-0000-0000-0000-000000000000" = false ∧
    subscription_id_valid "00000000-0000-0000-0000-000000000000" = true ∧
    main_validation "f47ac10b-58cc-4372-a567-0e02b2c3d479"
        "00000000-0000-0000-0000-000000000000" none = .ok ReplicationStrategy.ECHO :=
  ⟨rfl, rfl, rfl, rfl, rfl, rfl, rfl, rfl, rfl⟩

/-- C6 counterexample: on the unknown strategy name `"bogus"`, the evaluator
raises `NotImplementedError` while entry validation raises `ValueError` — not
the same error, refuting "fails with the same unsupported-strategy error as
the evaluator". -/
theorem claim_strategy_error_counterexample :
    generate_registration_delta [] [] "bogus"
      = .error (.notImplementedError "Unrecognized replication strategy bogus!") ∧
    main_validation "f47ac10b-58cc-4372-a567-0e02b2c3d479"
        "9b2b2b2a-1c4d-4a8e-9f3a-2d1e0c9b8a7f" (some "bogus")
      = .error (.valueError "bogus is not a valid ReplicationStrategy") ∧
    PyError.notImplementedError "Unrecognized replication strategy bogus!"
      ≠ PyError.valueError "bogus is not a valid ReplicationStrategy" :=
  ⟨rfl, rfl, by decide⟩

/-- C6 (amended): evaluating with an unrecognized strategy fails fast with the
distinct `NotImplementedError` for any snapshots, and entry validation with an
unknown strategy name also fails fast — but with a `ValueError` from the enum
lookup, a different error than the evaluator raises. -/
theorem claim_unsupported_strategy_fails (S D : Registrations)
    (src dst name : String) (hsrc : subscription_id_valid src = true)
    (hdst : subscription_id_valid dst = true) (hne : src ≠ dst)
    (h1 : name ≠ ReplicationStrategy.ECHO) (h2 : name ≠ ReplicationStrategy.SYNC) :
    generate_registration_delta S D name
      = .error (.notImplementedError
          ("Unrecognized replication strategy " ++ name ++ "!")) ∧
    main_validation src dst (some name)
      = .error (.valueError (name ++ " is not a valid ReplicationStrategy")) := by
  constructor
  · exact generate_other_eq S D name h1 h2
  · simp [main_validation, hne, hsrc, hdst, ReplicationStrategy.ofString, h1, h2]

theorem claim_unsupported_strategy_fails_witness :
    generate_registration_delta [("a", true)] [] "bogus"
      = .error (.notImplementedError
          ("Unrecognized replication strategy " ++ "bogus" ++ "!")) ∧
    main_validation "f47ac10b-58cc-4372-a567-0e02b2c3d479"
        "9b2b2b2a-1c4d-4a8e-9f3a-2d1e0c9b8a7f" (some "bogus")
      = .error (.valueError ("bogus" ++ " is not a valid ReplicationStrategy")) :=
  claim_unsupported_strategy_fails [("a", true)] []
    "f47ac10b-58cc-4372-a567-0e02b2c3d479" "9b2b2b2a-1c4d-4a8e-9f3a-2d1e0c9b8a7f"
    "bogus" (by decide) (by decide) (by decide) (by decide) (by decide)

/-- C7: at the orchestrator confirmation step (a non-empty delta was produced),
the apply step runs exactly when the operator input, lowercased and with
surrounding whitespace stripped, equals the literal `yes`; on any other input
the run terminates as Aborted with no register/unregister call. -/
theorem claim_confirmation_gate (S D : Registrations) (strategy input : String)
    (delta : Registrations)
    (hok : generate_registration_delta S D strategy = .ok delta) (hne : delta ≠ []) :
    (confirmationText input = "yes".toList →
      replicate_registrations S D strategy input
        = ⟨.applied, some delta, true, delta⟩) ∧
    (confirmationText input ≠ "yes".toList →
      replicate_registrations S D strategy input
        = ⟨.aborted, some delta, true, []⟩) := by
  have hempty : delta.isEmpty = false := by
    cases delta with
    | nil => exact absurd rfl hne
    | cons pe tl => rfl
  constructor
  · intro h
    simp [replicate_registrations, hok, hempty, h]
  · intro h
    have h2 : confirmationText input ≠ ['y', 'e', 's'] := by simpa using h
    simp [replicate_registrations, hok, hempty, h2]

theorem claim_confirmation_gate_witness :
    replicate_registrations [("a", true)] [("a", false)] ReplicationStrategy.ECHO " Yes "
      = ⟨.applied, some [("a", true)], true, [("a", true)]⟩ ∧
    replicate_registrations [("a", true)] [("a", false)] ReplicationStrategy.ECHO "no"
      = ⟨.aborted, some [("a", true)], true, []⟩ :=
  ⟨(claim_confirmation_gate [("a", true)] [("a", false)] ReplicationStrategy.ECHO " Yes "
      [("a", true)] rfl (by decide)).1 (by decide),
   (claim_confirmation_gate [("a", true)] [("a", false)] ReplicationStrategy.ECHO "no"
      [("a", true)] rfl (by decide)).2 (by decide)⟩

/-- C8: whenever the evaluated delta is empty, the run terminates with the
no-changes outcome: no report is produced, no confirmation prompt is issued,
and no register/unregister call is made. -/
theorem claim_empty_delta_short_circuit (S D : Registrations) (strategy input : String)
    (hok : generate_registration_delta S D strategy = .ok []) :
    replicate_registrations S D strategy input = ⟨.noChanges, none, false, []⟩ := by
  simp [replicate_registrations, hok]

theorem claim_empty_delta_short_circuit_witness :
    replicate_registrations [("a", true)] [("a", true)] ReplicationStrategy.ECHO "yes"
      = ⟨.noChanges, none, false, []⟩ :=
  claim_empty_delta_short_circuit [("a", true)] [("a", true)] ReplicationStrategy.ECHO
    "yes" rfl
